import Mathlib

/-!
Verification development for the pipeline parser of TheDen/agent
(src/agent/pipeline_parser.go).

The Go code parses a YAML pipeline definition, runs an `env` block
pre-pass that mutates the caller's Environment, recursively interpolates
`${...}` references in every string of the document tree, and finally
round-trips the tree through the YAML codec into a string-keyed result.

Shallow embedding notes:

* The YAML codec (github.com/buildkite/yaml) and the final string-map
  normalizer (yamltojson.UnmarshalAsStringMap) are external collaborators
  of this repository.  They are modelled as an abstract `Codec` record of
  functions over an abstract raw-bytes type, exactly mirroring the four
  call sites in Parse (yaml.Unmarshal into a slice, yaml.Unmarshal into a
  yaml.MapSlice, yaml.Marshal, yamltojson.UnmarshalAsStringMap).

* The interpolation evaluator (github.com/buildkite/interpolate) is an
  external collaborator as well: it is an abstract function
  `Itp : Env → String → Except String String`.

* The decoded document tree is the order-preserving representation the
  code actually manipulates: yaml.MapSlice is an ordered list of
  yaml.MapItem pairs (a Go struct with Key/Value fields), sequences are
  Go slices, scalars are strings / ints / bools / nil.  `Node` below is
  that value universe.  The reflective walk `interpolateRecursive`
  restricted to this universe visits: the Interface case (transparent
  unwrapping, no-op in the embedding), the Slice case (sequences and
  MapSlices), the Struct case (yaml.MapItem, fields Key then Value), the
  String case, and the default copy case; the nil-interface check maps to
  the `null` node.
-/

namespace Agent

/-- Environment (github.com/buildkite/agent/env): a mutable string-to-string
mapping with Get and overwriting Set.  Modelled as an association list with
unique keys maintained by `set`. -/
abbrev Env : Type := List (String × String)

/-- Lookup in the environment (Environment.Get). -/
def Env.get : Env → String → Option String
  | [], _ => none
  | (k, v) :: rest, x => if k = x then some v else Env.get rest x

/-- Overwriting update (Environment.Set): replaces the value of an existing
key in place, otherwise appends the new binding. -/
def Env.set : Env → String → String → Env
  | [], k, v => [(k, v)]
  | (k0, v0) :: rest, k, v =>
    if k0 = k then (k0, v) :: rest else (k0, v0) :: Env.set rest k v

/-- The interpolation evaluator interpolate.Interpolate(env, str):
an opaque collaborator returning the substituted string or an error. -/
abbrev Itp : Type := Env → String → Except String String

mutual
/-- A decoded YAML document value as manipulated by pipeline_parser.go:
nil, string, int, bool, a slice of values, or a yaml.MapSlice
(an ordered list of key/value pairs, keys arbitrary values). -/
inductive Node where
  | null : Node
  | str : String → Node
  | int : Int → Node
  | bool : Bool → Node
  | seq : NodeList → Node
  | omap : PairList → Node
deriving DecidableEq

/-- A Go slice []interface\x7b\x7d of document values. -/
inductive NodeList where
  | nil : NodeList
  | cons : Node → NodeList → NodeList
deriving DecidableEq

/-- A yaml.MapSlice: an ordered list of yaml.MapItem pairs. -/
inductive PairList where
  | nil : PairList
  | cons : Node → Node → PairList → PairList
deriving DecidableEq
end

/-- Number of entries of a yaml.MapSlice. -/
def PairList.length : PairList → Nat
  | .nil => 0
  | .cons _ _ rest => rest.length + 1

/-- Number of elements of a slice. -/
def NodeList.length : NodeList → Nat
  | .nil => 0
  | .cons _ rest => rest.length + 1

/-- Positional access into a yaml.MapSlice. -/
def PairList.get? : PairList → Nat → Option (Node × Node)
  | .nil, _ => none
  | .cons k v _, 0 => some (k, v)
  | .cons _ _ rest, n + 1 => rest.get? n

/-- Slice append, used to state fail-fast behaviour of the element loop. -/
def NodeList.append : NodeList → NodeList → NodeList
  | .nil, ys => ys
  | .cons x xs, ys => .cons x (NodeList.append xs ys)

/-- Go type switch test `case string:` on a decoded value. -/
def Node.isStr : Node → Bool
  | .str _ => true
  | _ => false

/-- Go fmt %T rendering of a decoded value's dynamic type. -/
def Node.goTypeName : Node → String
  | .null => "<nil>"
  | .str _ => "string"
  | .int _ => "int"
  | .bool _ => "bool"
  | .seq _ => "[]interface \x7b\x7d"
  | .omap _ => "yaml.MapSlice"

mutual
/-- Go fmt %v rendering of a decoded value. -/
def goFmt : Node → String
  | .null => "<nil>"
  | .str s => s
  | .int n => toString n
  | .bool b => if b then "true" else "false"
  | .seq xs => "[" ++ goFmtNodeList xs ++ "]"
  | .omap ps => "[" ++ goFmtPairList ps ++ "]"

/-- Go fmt %v rendering of a slice's elements (space separated). -/
def goFmtNodeList : NodeList → String
  | .nil => ""
  | .cons x .nil => goFmt x
  | .cons x xs => goFmt x ++ " " ++ goFmtNodeList xs

/-- Go fmt %v rendering of a MapSlice's items (each item a \x7bKey Value\x7d struct). -/
def goFmtPairList : PairList → String
  | .nil => ""
  | .cons k v .nil => "\x7b" ++ goFmt k ++ " " ++ goFmt v ++ "\x7d"
  | .cons k v ps => "\x7b" ++ goFmt k ++ " " ++ goFmt v ++ "\x7d " ++ goFmtPairList ps
end

mutual
/-- interpolateRecursive (pipeline_parser.go:162-269) on a document value.
String case: interpolate via the evaluator; default case: copy; nil
interfaces are left nil. -/
def interpolateNode (itp : Itp) (e : Env) : Node → Except String Node
  | .null => .ok .null
  | .str s =>
    match itp e s with
    | .error err => .error err
    | .ok s' => .ok (.str s')
  | .int n => .ok (.int n)
  | .bool b => .ok (.bool b)
  | .seq xs =>
    match interpolateNodeList itp e xs with
    | .error err => .error err
    | .ok xs' => .ok (.seq xs')
  | .omap ps =>
    match interpolatePairList itp e ps with
    | .error err => .error err
    | .ok ps' => .ok (.omap ps')

/-- interpolateRecursive, Slice case (pipeline_parser.go:219-227): a new
slice of the same length, each element interpolated in index order, first
error aborting the loop. -/
def interpolateNodeList (itp : Itp) (e : Env) : NodeList → Except String NodeList
  | .nil => .ok .nil
  | .cons x xs =>
    match interpolateNode itp e x with
    | .error err => .error err
    | .ok x' =>
      match interpolateNodeList itp e xs with
      | .error err => .error err
      | .ok xs' => .ok (.cons x' xs')

/-- interpolateRecursive on a yaml.MapSlice: the Slice case iterates the
items and the Struct case (pipeline_parser.go:210-216) recurses into the
yaml.MapItem fields in order Key, then Value. -/
def interpolatePairList (itp : Itp) (e : Env) : PairList → Except String PairList
  | .nil => .ok .nil
  | .cons k v ps =>
    match interpolateNode itp e k with
    | .error err => .error err
    | .ok k' =>
      match interpolateNode itp e v with
      | .error err => .error err
      | .ok v' =>
        match interpolatePairList itp e ps with
        | .error err => .error err
        | .ok ps' => .ok (.cons k' v' ps')
end

mutual
/-- Shape comparison between a source node and an interpolated node:
true when both have the same union variant, the same sequence lengths and
the same map entries pointwise, and every non-string scalar is unchanged;
string scalars are allowed to differ. -/
def shapeOnly : Node → Node → Bool
  | .null, .null => true
  | .str _, .str _ => true
  | .int a, .int b => a = b
  | .bool a, .bool b => a = b
  | .seq xs, .seq ys => shapeOnlyNodeList xs ys
  | .omap ps, .omap qs => shapeOnlyPairList ps qs
  | _, _ => false

/-- Pointwise shape comparison of two slices. -/
def shapeOnlyNodeList : NodeList → NodeList → Bool
  | .nil, .nil => true
  | .cons x xs, .cons y ys => shapeOnly x y && shapeOnlyNodeList xs ys
  | _, _ => false

/-- Pointwise shape comparison of two MapSlices. -/
def shapeOnlyPairList : PairList → PairList → Bool
  | .nil, .nil => true
  | .cons k v ps, .cons k' v' qs =>
    shapeOnly k k' && shapeOnly v v' && shapeOnlyPairList ps qs
  | _, _ => false
end

/-- All elements of a slice interpolate successfully. -/
def allOk (itp : Itp) (e : Env) : NodeList → Prop
  | .nil => True
  | .cons x xs => (∃ x', interpolateNode itp e x = .ok x') ∧ allOk itp e xs

/-- mapSliceItem (pipeline_parser.go:108-115): first item of the MapSlice
whose key is a string equal to the given key. -/
def mapSliceItem (key : String) : PairList → Option (Node × Node)
  | .nil => none
  | .cons k v rest =>
    match k with
    | .str ks => if ks = key then some (k, v) else mapSliceItem key rest
    | _ => mapSliceItem key rest

/-- interpolateEnvBlock (pipeline_parser.go:117-133).  Iterates the env
MapSlice in declaration order; a non-string key is an error; a string
value is interpolated against the environment as mutated so far and then
stored with Environment.Set; any other value is skipped.  Since the Go
code mutates p.Env in place, the embedding returns the environment after
the mutations performed so far together with the first error, if any. -/
def interpolateEnvBlock (itp : Itp) (e : Env) : PairList → Env × Option String
  | .nil => (e, none)
  | .cons k v rest =>
    match k with
    | .str ks =>
      match v with
      | .str tv =>
        match itp e tv with
        | .error err => (e, some err)
        | .ok interpolated => interpolateEnvBlock itp (Env.set e ks interpolated) rest
      | _ => interpolateEnvBlock itp e rest
    | _ =>
      (e, some ("Unexpected type of " ++ Node.goTypeName k ++ " for env block key "
        ++ goFmt k))

/-- Canonical string-keyed result tree produced by
yamltojson.UnmarshalAsStringMap (an external collaborator). -/
inductive RNode where
  | null : RNode
  | str : String → RNode
  | int : Int → RNode
  | bool : Bool → RNode
  | seq : List RNode → RNode
  | map : List (String × RNode) → RNode

/-- The external markup codec: the four decode/encode entry points Parse
uses, over an abstract raw-bytes type α. -/
structure Codec (α : Type) where
  decodeSlice : α → Except String NodeList
  decodeMap : α → Except String PairList
  marshal : Node → Except String α
  unmarshalStringMap : α → Except String RNode

/-- PipelineParser (pipeline_parser.go:18-23).  env is `none` when the
caller supplied a nil Environment. -/
structure PipelineParser (α : Type) where
  env : Option Env
  filename : String
  pipeline : α
  noInterpolation : Bool

/-- The pair of results Parse returns, (interface\x7b\x7d, error), together with
the state of the (in-place mutated) Environment when Parse returns. -/
structure ParseOut where
  result : Option RNode
  err : Option String
  envOut : Env

/-- Environment actually used by Parse (pipeline_parser.go:26-28): the
caller's Environment, or one seeded from the ambient process environment
when the caller supplied nil. -/
def envOf {α : Type} (p : PipelineParser α) (ambient : Env) : Env :=
  match p.env with
  | none => ambient
  | some e0 => e0

/-- Error context prefix (pipeline_parser.go:30-35). -/
def errPrefixOf (filename : String) : String :=
  if filename = "" then "Failed to parse pipeline" else "Failed to parse " ++ filename

/-- formatYAMLError (pipeline_parser.go:135-137): strip a leading
"yaml: " from the codec diagnostic. -/
def formatYAMLError (msg : String) : String :=
  if msg.take 6 = "yaml: " then msg.drop 6 else msg

/-- parseWithEnv (pipeline_parser.go:85-106): decode the raw bytes as a
yaml.MapSlice; if a top-level `env` entry exists, its value must be a
MapSlice and is run through interpolateEnvBlock.  Returns the result or
error, plus the Environment state after any in-place Sets.  Note the Go
code renders the %T of the yaml.MapItem `item` itself in the shape error,
so the rendered type is the constant "yaml.MapItem". -/
def parseWithEnv {α : Type} (c : Codec α) (itp : Itp) (e : Env) (raw : α) :
    Except String PairList × Env :=
  match c.decodeMap raw with
  | .error err => (.error err, e)
  | .ok pipeline =>
    match mapSliceItem "env" pipeline with
    | some item =>
      match item.2 with
      | .omap envMap =>
        match interpolateEnvBlock itp e envMap with
        | (e', some err) => (.error err, e')
        | (e', none) => (.ok pipeline, e')
      | _ =>
        (.error ("Expected pipeline top-level env block to be a map, got yaml.MapItem"), e)
    | none => (.ok pipeline, e)

/-- The shared tail of Parse (pipeline_parser.go:61-82): interpolate the
whole document, marshal it back to raw bytes, and re-decode it as a
string-keyed tree.  Interpolation and marshal errors are returned bare;
the final decode error gets the context prefix. -/
def parseFinish {α : Type} (c : Codec α) (itp : Itp) (e : Env) (errPre : String)
    (pipeline : Node) : ParseOut :=
  match interpolateNode itp e pipeline with
  | .error err => ⟨none, some err, e⟩
  | .ok interpolated =>
    match c.marshal interpolated with
    | .error err => ⟨none, some err, e⟩
    | .ok b =>
      match c.unmarshalStringMap b with
      | .error err => ⟨none, some (errPre ++ ": " ++ formatYAMLError err), e⟩
      | .ok result => ⟨some result, none, e⟩

/-- Parse (pipeline_parser.go:25-83). -/
def Parse {α : Type} (c : Codec α) (ambient : Env) (itp : Itp)
    (p : PipelineParser α) : ParseOut :=
  let e := envOf p ambient
  let errPre := errPrefixOf p.filename
  if p.noInterpolation then
    match c.unmarshalStringMap p.pipeline with
    | .error err => ⟨none, some (errPre ++ ": " ++ formatYAMLError err), e⟩
    | .ok result => ⟨some result, none, e⟩
  else
    match c.decodeSlice p.pipeline with
    | .ok pipelineAsSlice => parseFinish c itp e errPre (.seq pipelineAsSlice)
    | .error _ =>
      match parseWithEnv c itp e p.pipeline with
      | (.error err, e') => ⟨none, some (errPre ++ ": " ++ formatYAMLError err), e'⟩
      | (.ok pipelineAsMap, e') => parseFinish c itp e' errPre (.omap pipelineAsMap)

/-! Concrete evaluators and codecs used to exercise the theorems on
closed inputs.  They play the role of the opaque collaborators
(buildkite/interpolate and the YAML codec) in examples. -/

/-- A concrete evaluator: a string bound in the environment is replaced by
its value, any other string is returned unchanged. -/
def itpLookup : Itp := fun e s =>
  match Env.get e s with
  | some v => .ok v
  | none => .ok s

/-- A concrete evaluator that fails on strings not bound in the
environment, like an unresolved ${...} reference. -/
def itpStrict : Itp := fun e s =>
  match Env.get e s with
  | some v => .ok v
  | none => .error ("unknown variable " ++ s)

/-- A concrete codec over String raw bytes whose map decode yields a
document with an env block holding a string value. -/
def codecEnvStr : Codec String where
  decodeSlice := fun _ => .error "yaml: unmarshal errors"
  decodeMap := fun _ => .ok (.cons (.str "env") (.str "not-a-map") .nil)
  marshal := fun _ => .ok ""
  unmarshalStringMap := fun _ => .ok .null

/-- A concrete codec like codecEnvStr but whose env block value is a
sequence instead of a string. -/
def codecEnvSeq : Codec String where
  decodeSlice := fun _ => .error "yaml: unmarshal errors"
  decodeMap := fun _ => .ok (.cons (.str "env") (.seq (.cons (.int 1) .nil)) .nil)
  marshal := fun _ => .ok ""
  unmarshalStringMap := fun _ => .ok .null

/-- A concrete codec whose slice decode succeeds with a single string
step. -/
def codecSliceDoc : Codec String where
  decodeSlice := fun _ => .ok (.cons (.str "$\x7bX\x7d") .nil)
  decodeMap := fun _ => .error "yaml: unmarshal errors"
  marshal := fun _ => .ok ""
  unmarshalStringMap := fun _ => .ok .null

/-- A concrete codec on which both document-shape decodes fail. -/
def codecBothFail : Codec String where
  decodeSlice := fun _ => .error "yaml: not a slice"
  decodeMap := fun _ => .error "yaml: line 1: did not find expected node content"
  marshal := fun _ => .ok ""
  unmarshalStringMap := fun _ => .ok .null

/-- A concrete codec whose map decode yields an env block and whose
marshal step fails, to exhibit a post-pre-pass failure. -/
def codecEnvThenMarshalFail : Codec String where
  decodeSlice := fun _ => .error "yaml: unmarshal errors"
  decodeMap := fun _ =>
    .ok (.cons (.str "env") (.omap (.cons (.str "A") (.str "x") .nil)) .nil)
  marshal := fun _ => .error "marshal exploded"
  unmarshalStringMap := fun _ => .ok .null

/-- A concrete codec whose final string-map decode fails. -/
def codecNormalizeFail : Codec String where
  decodeSlice := fun _ => .ok .nil
  decodeMap := fun _ => .error "yaml: unmarshal errors"
  marshal := fun _ => .ok ""
  unmarshalStringMap := fun _ => .error "yaml: cannot unmarshal"

/-- A codec identical to codecSliceDoc except for its map decode, used to
show the map decode is never consulted when the slice decode succeeds. -/
def codecSliceDoc2 : Codec String where
  decodeSlice := fun _ => .ok (.cons (.str "$\x7bX\x7d") .nil)
  decodeMap := fun _ => .ok .nil
  marshal := fun _ => .ok ""
  unmarshalStringMap := fun _ => .ok .null

end Agent

namespace Agent

/-! Helper lemmas. -/

theorem Env.get_set_self (e : Env) (k v : String) : Env.get (Env.set e k v) k = some v := by
  induction e with
  | nil => simp [Env.set, Env.get]
  | cons kv rest ih =>
    obtain ⟨k0, v0⟩ := kv
    by_cases h : k0 = k
    · subst h
      simp [Env.set, Env.get]
    · simp [Env.set, Env.get, h, ih]

theorem shapeOnlyPairList_length :
    ∀ (ps qs : PairList), shapeOnlyPairList ps qs = true →
      PairList.length qs = PairList.length ps
  | .nil, .nil, _ => rfl
  | .nil, .cons _ _ _, h => by simp [shapeOnlyPairList] at h
  | .cons _ _ _, .nil, h => by simp [shapeOnlyPairList] at h
  | .cons _ _ ps, .cons _ _ qs, h => by
    simp only [shapeOnlyPairList, Bool.and_eq_true] at h
    simp [PairList.length, shapeOnlyPairList_length ps qs h.2]

theorem interp_shape_fuel (m : Nat) :
    ∀ (itp : Itp) (e : Env),
      (∀ n n', sizeOf n ≤ m → interpolateNode itp e n = .ok n' → shapeOnly n n' = true) ∧
      (∀ xs xs', sizeOf xs ≤ m →
        interpolateNodeList itp e xs = .ok xs' → shapeOnlyNodeList xs xs' = true) ∧
      (∀ ps ps', sizeOf ps ≤ m →
        interpolatePairList itp e ps = .ok ps' → shapeOnlyPairList ps ps' = true) := by
  induction m with
  | zero =>
    intro itp e
    refine ⟨fun n n' h _ => absurd h ?_, fun xs xs' h _ => absurd h ?_,
      fun ps ps' h _ => absurd h ?_⟩
    · cases n <;> simp
    · cases xs <;> simp
    · cases ps <;> simp
  | succ m ih =>
    intro itp e
    refine ⟨?_, ?_, ?_⟩
    · intro n n' hsz hint
      cases n with
      | null =>
        simp only [interpolateNode, Except.ok.injEq] at hint
        subst hint; rfl
      | str s =>
        cases hi : itp e s with
        | error err => simp [interpolateNode, hi] at hint
        | ok s' =>
          simp only [interpolateNode, hi, Except.ok.injEq] at hint
          subst hint; rfl
      | int n0 =>
        simp only [interpolateNode, Except.ok.injEq] at hint
        subst hint; simp [shapeOnly]
      | bool b =>
        simp only [interpolateNode, Except.ok.injEq] at hint
        subst hint; simp [shapeOnly]
      | seq xs =>
        cases hl : interpolateNodeList itp e xs with
        | error err => simp [interpolateNode, hl] at hint
        | ok xs' =>
          simp only [interpolateNode, hl, Except.ok.injEq] at hint
          subst hint
          have hb : sizeOf xs ≤ m := by
            simp only [Node.seq.sizeOf_spec] at hsz; omega
          exact (ih itp e).2.1 xs xs' hb hl
      | omap ps =>
        cases hl : interpolatePairList itp e ps with
        | error err => simp [interpolateNode, hl] at hint
        | ok ps' =>
          simp only [interpolateNode, hl, Except.ok.injEq] at hint
          subst hint
          have hb : sizeOf ps ≤ m := by
            simp only [Node.omap.sizeOf_spec] at hsz; omega
          exact (ih itp e).2.2 ps ps' hb hl
    · intro xs xs' hsz hint
      cases xs with
      | nil =>
        simp only [interpolateNodeList, Except.ok.injEq] at hint
        subst hint; rfl
      | cons x rest =>
        cases hx : interpolateNode itp e x with
        | error err => simp [interpolateNodeList, hx] at hint
        | ok x' =>
          cases hr : interpolateNodeList itp e rest with
          | error err => simp [interpolateNodeList, hx, hr] at hint
          | ok rest' =>
            simp only [interpolateNodeList, hx, hr, Except.ok.injEq] at hint
            subst hint
            have hbx : sizeOf x ≤ m := by
              simp only [NodeList.cons.sizeOf_spec] at hsz; omega
            have hbr : sizeOf rest ≤ m := by
              simp only [NodeList.cons.sizeOf_spec] at hsz; omega
            simp only [shapeOnlyNodeList, Bool.and_eq_true]
            exact ⟨(ih itp e).1 x x' hbx hx, (ih itp e).2.1 rest rest' hbr hr⟩
    · intro ps ps' hsz hint
      cases ps with
      | nil =>
        simp only [interpolatePairList, Except.ok.injEq] at hint
        subst hint; rfl
      | cons k v rest =>
        cases hk : interpolateNode itp e k with
        | error err => simp [interpolatePairList, hk] at hint
        | ok k' =>
          cases hv : interpolateNode itp e v with
          | error err => simp [interpolatePairList, hk, hv] at hint
          | ok v' =>
            cases hr : interpolatePairList itp e rest with
            | error err => simp [interpolatePairList, hk, hv, hr] at hint
            | ok rest' =>
              simp only [interpolatePairList, hk, hv, hr, Except.ok.injEq] at hint
              subst hint
              have hbk : sizeOf k ≤ m := by
                simp only [PairList.cons.sizeOf_spec] at hsz; omega
              have hbv : sizeOf v ≤ m := by
                simp only [PairList.cons.sizeOf_spec] at hsz; omega
              have hbr : sizeOf rest ≤ m := by
                simp only [PairList.cons.sizeOf_spec] at hsz; omega
              simp only [shapeOnlyPairList, Bool.and_eq_true]
              exact ⟨⟨(ih itp e).1 k k' hbk hk, (ih itp e).1 v v' hbv hv⟩,
                (ih itp e).2.2 rest rest' hbr hr⟩

/-- C1: every node produced by tree interpolation has the same shape as
its source node (same union variant, same sequence length, same map
entries pointwise in the same order), only string scalars may change
value, and in particular every interpolated mapping has exactly as many
entries as its source mapping even when two distinct string keys
interpolate to the same string. -/
theorem interpolation_preserves_shape (itp : Itp) (e : Env) :
    (∀ n n', interpolateNode itp e n = .ok n' → shapeOnly n n' = true) ∧
    (∀ ps ps', interpolatePairList itp e ps = .ok ps' →
      PairList.length ps' = PairList.length ps) := by
  constructor
  · intro n n' h
    exact ((interp_shape_fuel (sizeOf n)) itp e).1 n n' le_rfl h
  · intro ps ps' h
    exact shapeOnlyPairList_length ps ps'
      (((interp_shape_fuel (sizeOf ps)) itp e).2.2 ps ps' le_rfl h)

/-- Witness for C1 at a document whose two distinct string keys both
interpolate to the same string "X": the interpolated mapping still has
two entries and the same shape. -/
theorem interpolation_preserves_shape_witness :
    shapeOnly
      (Node.omap (.cons (.str "$\x7bA\x7d") (.int 1) (.cons (.str "X") (.int 2) .nil)))
      (Node.omap (.cons (.str "X") (.int 1) (.cons (.str "X") (.int 2) .nil))) = true ∧
    PairList.length (.cons (.str "X") (.int 1) (.cons (.str "X") (.int 2) .nil)) =
      PairList.length (.cons (.str "$\x7bA\x7d") (.int 1) (.cons (.str "X") (.int 2) .nil)) :=
  ⟨(interpolation_preserves_shape itpLookup [("$\x7bA\x7d", "X")]).1
      (Node.omap (.cons (.str "$\x7bA\x7d") (.int 1) (.cons (.str "X") (.int 2) .nil)))
      (Node.omap (.cons (.str "X") (.int 1) (.cons (.str "X") (.int 2) .nil))) rfl,
   (interpolation_preserves_shape itpLookup [("$\x7bA\x7d", "X")]).2
      (.cons (.str "$\x7bA\x7d") (.int 1) (.cons (.str "X") (.int 2) .nil))
      (.cons (.str "X") (.int 1) (.cons (.str "X") (.int 2) .nil)) rfl⟩


/-- C2: env block entries are processed in declaration order; each
string-valued entry is interpolated against the Environment as already
mutated by the earlier entries of the same block before Environment.Set
is called, so for a block [(k1,v1),(k2,v2)] the value stored for k2 is
the interpolation of v2 against the environment holding k1's interpolated
value; non-string values are not copied into the Environment; a
non-string key fails with the key-type error. -/
theorem envBlock_sequential :
    (∀ (itp : Itp) (e : Env) (k1 v1 k2 v2 iv1 iv2 : String),
      itp e v1 = .ok iv1 →
      itp (Env.set e k1 iv1) v2 = .ok iv2 →
      interpolateEnvBlock itp e
        (.cons (.str k1) (.str v1) (.cons (.str k2) (.str v2) .nil)) =
        (Env.set (Env.set e k1 iv1) k2 iv2, none)) ∧
    (∀ (itp : Itp) (e : Env) (k1 v1 k2 v2 iv1 iv2 : String),
      itp e v1 = .ok iv1 →
      itp (Env.set e k1 iv1) v2 = .ok iv2 →
      Env.get (interpolateEnvBlock itp e
        (.cons (.str k1) (.str v1) (.cons (.str k2) (.str v2) .nil))).1 k2 = some iv2) ∧
    (∀ (itp : Itp) (e : Env) (k : String) (v : Node) (rest : PairList),
      Node.isStr v = false →
      interpolateEnvBlock itp e (.cons (.str k) v rest) =
        interpolateEnvBlock itp e rest) ∧
    (∀ (itp : Itp) (e : Env) (k v : Node) (rest : PairList),
      Node.isStr k = false →
      interpolateEnvBlock itp e (.cons k v rest) =
        (e, some ("Unexpected type of " ++ Node.goTypeName k ++ " for env block key "
          ++ goFmt k))) := by
  refine ⟨?_, ?_, ?_, ?_⟩
  · intro itp e k1 v1 k2 v2 iv1 iv2 h1 h2
    simp [interpolateEnvBlock, h1, h2]
  · intro itp e k1 v1 k2 v2 iv1 iv2 h1 h2
    simp [interpolateEnvBlock, h1, h2, Env.get_set_self]
  · intro itp e k v rest hv
    cases v <;> simp_all [Node.isStr, interpolateEnvBlock]
  · intro itp e k v rest hk
    cases k <;> simp_all [Node.isStr, interpolateEnvBlock]

/-- Witness for C2: a concrete two-entry block whose second value
references the first key, a skipped non-string value, and a rejected
non-string key. -/
theorem envBlock_sequential_witness :
    interpolateEnvBlock itpLookup []
      (.cons (.str "A") (.str "x") (.cons (.str "B") (.str "A") .nil)) =
      ([("A", "x"), ("B", "x")], none) ∧
    Env.get (interpolateEnvBlock itpLookup []
      (.cons (.str "A") (.str "x") (.cons (.str "B") (.str "A") .nil))).1 "B" =
      some "x" ∧
    interpolateEnvBlock itpLookup [] (.cons (.str "C") (.int 5) .nil) =
      interpolateEnvBlock itpLookup [] .nil ∧
    interpolateEnvBlock itpLookup [] (.cons (.int 7) (.str "x") .nil) =
      ([], some "Unexpected type of int for env block key 7") :=
  ⟨envBlock_sequential.1 itpLookup [] "A" "x" "B" "A" "x" "x" rfl rfl,
   envBlock_sequential.2.1 itpLookup [] "A" "x" "B" "A" "x" "x" rfl rfl,
   envBlock_sequential.2.2.1 itpLookup [] "C" (.int 5) .nil rfl,
   envBlock_sequential.2.2.2 itpLookup [] (.int 7) (.str "x") .nil rfl⟩

/-- C10: duplicate string keys in an env block are each processed in
declaration order against the environment as mutated so far, Set is
called for each, and the environment ends up holding the interpolated
value of the last occurrence. -/
theorem envBlock_duplicate_keys_last_wins :
    ∀ (itp : Itp) (e : Env) (k v1 v2 iv1 iv2 : String),
      itp e v1 = .ok iv1 →
      itp (Env.set e k iv1) v2 = .ok iv2 →
      interpolateEnvBlock itp e
        (.cons (.str k) (.str v1) (.cons (.str k) (.str v2) .nil)) =
        (Env.set (Env.set e k iv1) k iv2, none) ∧
      Env.get (Env.set (Env.set e k iv1) k iv2) k = some iv2 := by
  intro itp e k v1 v2 iv1 iv2 h1 h2
  constructor
  · simp [interpolateEnvBlock, h1, h2]
  · exact Env.get_set_self _ _ _

/-- Witness for C10: the duplicated key "A" is first set to "r", then the
second occurrence interpolates against the mutated environment and
overwrites it with "q". -/
theorem envBlock_duplicate_keys_last_wins_witness :
    interpolateEnvBlock itpLookup [("P", "q")]
      (.cons (.str "A") (.str "r") (.cons (.str "A") (.str "P") .nil)) =
      ([("P", "q"), ("A", "q")], none) ∧
    Env.get [("P", "q"), ("A", "q")] "A" = some "q" :=
  envBlock_duplicate_keys_last_wins itpLookup [("P", "q")] "A" "r" "P" "r" "q" rfl rfl


/-! Helper lemmas about the Parse tail. -/

theorem parseFinish_envOut {α : Type} (c : Codec α) (itp : Itp) (e : Env)
    (errPre : String) (doc : Node) : (parseFinish c itp e errPre doc).envOut = e := by
  cases hi : interpolateNode itp e doc with
  | error err => simp [parseFinish, hi]
  | ok n =>
    cases hm : c.marshal n with
    | error err => simp [parseFinish, hi, hm]
    | ok b =>
      cases hu : c.unmarshalStringMap b with
      | error err => simp [parseFinish, hi, hm, hu]
      | ok r => simp [parseFinish, hi, hm, hu]

theorem parseFinish_congr {α : Type} (c c2 : Codec α) (itp : Itp) (e : Env)
    (errPre : String) (doc : Node)
    (hm : c2.marshal = c.marshal) (hu : c2.unmarshalStringMap = c.unmarshalStringMap) :
    parseFinish c itp e errPre doc = parseFinish c2 itp e errPre doc := by
  unfold parseFinish
  rw [hm, hu]

theorem parseFinish_err_result {α : Type} (c : Codec α) (itp : Itp) (e : Env)
    (errPre : String) (doc : Node) (msg : String)
    (h : (parseFinish c itp e errPre doc).err = some msg) :
    (parseFinish c itp e errPre doc).result = none := by
  cases hi : interpolateNode itp e doc with
  | error err => simp [parseFinish, hi]
  | ok n =>
    cases hm : c.marshal n with
    | error err => simp [parseFinish, hi, hm]
    | ok b =>
      cases hu : c.unmarshalStringMap b with
      | error err => simp [parseFinish, hi, hm, hu]
      | ok r => simp [parseFinish, hi, hm, hu] at h

/-- C3 (code bug in the shape error message): when the top-level env value
is not a mapping, Parse fails, but the message renders the %T of the
yaml.MapItem wrapper rather than of the env value, so two documents whose
env values have different types (a string and a sequence) produce the very
same diagnostic "got yaml.MapItem", which never names the actual type. -/
theorem env_shape_error_constant_type_name :
    Parse codecEnvStr [] itpLookup ⟨some [], "", "raw", false⟩ =
      ⟨none,
       some "Failed to parse pipeline: Expected pipeline top-level env block to be a map, got yaml.MapItem",
       []⟩ ∧
    Parse codecEnvSeq [] itpLookup ⟨some [], "", "raw", false⟩ =
      ⟨none,
       some "Failed to parse pipeline: Expected pipeline top-level env block to be a map, got yaml.MapItem",
       []⟩ :=
  ⟨rfl, rfl⟩

/-- C7: the bare-sequence decode is attempted first and, when it succeeds,
the map decode and the env pre-pass are skipped (the result is independent
of the map decoder and the environment is returned unchanged); when both
decodes fail, Parse fails with the map-decode diagnostic, prefixed, with
any leading "yaml: " stripped. -/
theorem decode_order_and_syntax_error :
    (∀ (α : Type) (c c2 : Codec α) (ambient : Env) (itp : Itp)
        (p : PipelineParser α) (xs : NodeList),
      p.noInterpolation = false →
      c.decodeSlice p.pipeline = .ok xs →
      c2.decodeSlice = c.decodeSlice →
      c2.marshal = c.marshal →
      c2.unmarshalStringMap = c.unmarshalStringMap →
      Parse c ambient itp p = Parse c2 ambient itp p ∧
      (Parse c ambient itp p).envOut = envOf p ambient) ∧
    (∀ (α : Type) (c : Codec α) (ambient : Env) (itp : Itp)
        (p : PipelineParser α) (d m : String),
      p.noInterpolation = false →
      c.decodeSlice p.pipeline = .error d →
      c.decodeMap p.pipeline = .error m →
      Parse c ambient itp p =
        ⟨none, some (errPrefixOf p.filename ++ ": " ++ formatYAMLError m),
         envOf p ambient⟩) := by
  constructor
  · intro α c c2 ambient itp p xs hni hs hcs hcm hcu
    have h1 : Parse c ambient itp p =
        parseFinish c itp (envOf p ambient) (errPrefixOf p.filename) (.seq xs) := by
      simp [Parse, hni, hs]
    have h2 : Parse c2 ambient itp p =
        parseFinish c2 itp (envOf p ambient) (errPrefixOf p.filename) (.seq xs) := by
      have : c2.decodeSlice p.pipeline = .ok xs := by rw [hcs]; exact hs
      simp [Parse, hni, this]
    refine ⟨?_, ?_⟩
    · rw [h1, h2]
      exact parseFinish_congr c c2 itp _ _ _ hcm hcu
    · rw [h1]
      exact parseFinish_envOut c itp _ _ _
  · intro α c ambient itp p d m hni hs hm
    simp [Parse, hni, hs, parseWithEnv, hm]

/-- Witness for C7: the map decoder of codecSliceDoc2 differs from that of
codecSliceDoc yet Parse agrees on both, the environment comes back
untouched, and a document failing both decodes yields the prefixed,
"yaml: "-stripped map-decode diagnostic. -/
theorem decode_order_and_syntax_error_witness :
    Parse codecSliceDoc [] itpLookup ⟨some [("E", "v")], "", "raw", false⟩ =
      Parse codecSliceDoc2 [] itpLookup ⟨some [("E", "v")], "", "raw", false⟩ ∧
    (Parse codecSliceDoc [] itpLookup ⟨some [("E", "v")], "", "raw", false⟩).envOut =
      envOf (⟨some [("E", "v")], "", "raw", false⟩ : PipelineParser String) [] ∧
    Parse codecBothFail [] itpLookup ⟨some [], "a.yml", "raw", false⟩ =
      ⟨none, some "Failed to parse a.yml: line 1: did not find expected node content", []⟩ :=
  ⟨(decode_order_and_syntax_error.1 String codecSliceDoc codecSliceDoc2 [] itpLookup
      ⟨some [("E", "v")], "", "raw", false⟩ (.cons (.str "$\x7bX\x7d") .nil)
      rfl rfl rfl rfl rfl).1,
   (decode_order_and_syntax_error.1 String codecSliceDoc codecSliceDoc2 [] itpLookup
      ⟨some [("E", "v")], "", "raw", false⟩ (.cons (.str "$\x7bX\x7d") .nil)
      rfl rfl rfl rfl rfl).2,
   decode_order_and_syntax_error.2 String codecBothFail [] itpLookup
      ⟨some [], "a.yml", "raw", false⟩ "yaml: not a slice"
      "yaml: line 1: did not find expected node content" rfl rfl rfl⟩


/-- C4 counterexample: on a document whose tree interpolation fails, Parse
returns the evaluator's error verbatim, without the "Failed to parse"
context prefix, even though a filename is set. -/
theorem parse_error_prefix_counterexample :
    Parse codecSliceDoc [] itpStrict ⟨some [], "pipeline.yml", "raw", false⟩ =
      ⟨none, some "unknown variable $\x7bX\x7d", []⟩ ∧
    ("unknown variable $\x7bX\x7d").take 15 ≠ "Failed to parse" :=
  ⟨rfl, by decide⟩

/-- C4 amended: decode errors (in both modes), env pre-pass errors and
final normalization errors are wrapped with the context prefix, but tree
interpolation errors and re-marshal errors are returned bare, without the
prefix. -/
theorem parse_error_prefix_amended :
    (∀ (α : Type) (c : Codec α) (ambient : Env) (itp : Itp)
        (p : PipelineParser α) (m : String),
      p.noInterpolation = true →
      c.unmarshalStringMap p.pipeline = .error m →
      Parse c ambient itp p =
        ⟨none, some (errPrefixOf p.filename ++ ": " ++ formatYAMLError m),
         envOf p ambient⟩) ∧
    (∀ (α : Type) (c : Codec α) (ambient : Env) (itp : Itp)
        (p : PipelineParser α) (d m : String) (e' : Env),
      p.noInterpolation = false →
      c.decodeSlice p.pipeline = .error d →
      parseWithEnv c itp (envOf p ambient) p.pipeline = (.error m, e') →
      Parse c ambient itp p =
        ⟨none, some (errPrefixOf p.filename ++ ": " ++ formatYAMLError m), e'⟩) ∧
    (∀ (α : Type) (c : Codec α) (itp : Itp) (e : Env) (errPre : String)
        (doc : Node) (m : String),
      interpolateNode itp e doc = .error m →
      parseFinish c itp e errPre doc = ⟨none, some m, e⟩) ∧
    (∀ (α : Type) (c : Codec α) (itp : Itp) (e : Env) (errPre : String)
        (doc n : Node) (m : String),
      interpolateNode itp e doc = .ok n →
      c.marshal n = .error m →
      parseFinish c itp e errPre doc = ⟨none, some m, e⟩) ∧
    (∀ (α : Type) (c : Codec α) (itp : Itp) (e : Env) (errPre : String)
        (doc n : Node) (b : α) (m : String),
      interpolateNode itp e doc = .ok n →
      c.marshal n = .ok b →
      c.unmarshalStringMap b = .error m →
      parseFinish c itp e errPre doc =
        ⟨none, some (errPre ++ ": " ++ formatYAMLError m), e⟩) ∧
    (∀ (α : Type) (c : Codec α) (ambient : Env) (itp : Itp)
        (p : PipelineParser α) (xs : NodeList),
      p.noInterpolation = false →
      c.decodeSlice p.pipeline = .ok xs →
      Parse c ambient itp p =
        parseFinish c itp (envOf p ambient) (errPrefixOf p.filename) (.seq xs)) ∧
    (∀ (α : Type) (c : Codec α) (ambient : Env) (itp : Itp)
        (p : PipelineParser α) (d : String) (ps : PairList) (e' : Env),
      p.noInterpolation = false →
      c.decodeSlice p.pipeline = .error d →
      parseWithEnv c itp (envOf p ambient) p.pipeline = (.ok ps, e') →
      Parse c ambient itp p =
        parseFinish c itp e' (errPrefixOf p.filename) (.omap ps)) := by
  refine ⟨?_, ?_, ?_, ?_, ?_, ?_, ?_⟩
  · intro α c ambient itp p m hni hu
    simp [Parse, hni, hu]
  · intro α c ambient itp p d m e' hni hs hpw
    simp [Parse, hni, hs, hpw]
  · intro α c itp e errPre doc m hi
    simp [parseFinish, hi]
  · intro α c itp e errPre doc n m hi hm
    simp [parseFinish, hi, hm]
  · intro α c itp e errPre doc n b m hi hm hu
    simp [parseFinish, hi, hm, hu]
  · intro α c ambient itp p xs hni hs
    simp [Parse, hni, hs]
  · intro α c ambient itp p d ps e' hni hs hpw
    simp [Parse, hni, hs, hpw]

/-- Witness for C4 amended, exercising each branch on a concrete codec:
a prefixed decode error in no-interpolation mode, a prefixed env pre-pass
error, a bare interpolation error, a bare marshal error, a prefixed
normalization error, and both bridges from Parse into the shared tail. -/
theorem parse_error_prefix_amended_witness :
    Parse codecNormalizeFail [] itpLookup ⟨some [], "", "raw", true⟩ =
      ⟨none, some "Failed to parse pipeline: cannot unmarshal", []⟩ ∧
    Parse codecEnvStr [] itpLookup ⟨some [], "p.yml", "raw", false⟩ =
      ⟨none,
       some "Failed to parse p.yml: Expected pipeline top-level env block to be a map, got yaml.MapItem",
       []⟩ ∧
    parseFinish codecSliceDoc itpStrict [] "Failed to parse pipeline"
      (.seq (.cons (.str "$\x7bX\x7d") .nil)) =
      ⟨none, some "unknown variable $\x7bX\x7d", []⟩ ∧
    parseFinish codecEnvThenMarshalFail itpLookup [] "Failed to parse pipeline"
      (.int 3) = ⟨none, some "marshal exploded", []⟩ ∧
    parseFinish codecNormalizeFail itpLookup [] "Failed to parse pipeline"
      Node.null = ⟨none, some "Failed to parse pipeline: cannot unmarshal", []⟩ ∧
    Parse codecSliceDoc [] itpStrict ⟨some [], "", "raw", false⟩ =
      parseFinish codecSliceDoc itpStrict [] "Failed to parse pipeline"
        (.seq (.cons (.str "$\x7bX\x7d") .nil)) ∧
    Parse codecEnvThenMarshalFail [] itpLookup ⟨some [], "", "raw", false⟩ =
      parseFinish codecEnvThenMarshalFail itpLookup [("A", "x")]
        "Failed to parse pipeline"
        (.omap (.cons (.str "env") (.omap (.cons (.str "A") (.str "x") .nil)) .nil)) :=
  ⟨parse_error_prefix_amended.1 String codecNormalizeFail [] itpLookup
      ⟨some [], "", "raw", true⟩ "yaml: cannot unmarshal" rfl rfl,
   parse_error_prefix_amended.2.1 String codecEnvStr [] itpLookup
      ⟨some [], "p.yml", "raw", false⟩ "yaml: unmarshal errors"
      "Expected pipeline top-level env block to be a map, got yaml.MapItem" [] rfl rfl rfl,
   parse_error_prefix_amended.2.2.1 String codecSliceDoc itpStrict []
      "Failed to parse pipeline" (.seq (.cons (.str "$\x7bX\x7d") .nil))
      "unknown variable $\x7bX\x7d" rfl,
   parse_error_prefix_amended.2.2.2.1 String codecEnvThenMarshalFail itpLookup []
      "Failed to parse pipeline" (.int 3) (.int 3) "marshal exploded" rfl rfl,
   parse_error_prefix_amended.2.2.2.2.1 String codecNormalizeFail itpLookup []
      "Failed to parse pipeline" Node.null Node.null "" "yaml: cannot unmarshal"
      rfl rfl rfl,
   parse_error_prefix_amended.2.2.2.2.2.1 String codecSliceDoc [] itpStrict
      ⟨some [], "", "raw", false⟩ (.cons (.str "$\x7bX\x7d") .nil) rfl rfl,
   parse_error_prefix_amended.2.2.2.2.2.2 String codecEnvThenMarshalFail [] itpLookup
      ⟨some [], "", "raw", false⟩ "yaml: unmarshal errors"
      (.cons (.str "env") (.omap (.cons (.str "A") (.str "x") .nil)) .nil)
      [("A", "x")] rfl rfl rfl⟩


/-- C6: with NoInterpolation set, Parse is exactly the format
normalization of the raw document: the result is independent of the
evaluator and of the supplied Environment, the Environment is returned
unchanged, and the outcome is precisely the string-map decode of the raw
bytes (with only the decode error getting the context prefix), so every
literal placeholder substring survives verbatim. -/
theorem noInterpolation_only_normalizes :
    ∀ (α : Type) (c : Codec α) (ambient : Env) (itp itp2 : Itp)
      (p : PipelineParser α),
      p.noInterpolation = true →
      Parse c ambient itp p = Parse c ambient itp2 p ∧
      (Parse c ambient itp p).envOut = envOf p ambient ∧
      (∀ e1 e2 : Env,
        (Parse c ambient itp
          (PipelineParser.mk (some e1) p.filename p.pipeline true)).result =
        (Parse c ambient itp
          (PipelineParser.mk (some e2) p.filename p.pipeline true)).result ∧
        (Parse c ambient itp
          (PipelineParser.mk (some e1) p.filename p.pipeline true)).err =
        (Parse c ambient itp
          (PipelineParser.mk (some e2) p.filename p.pipeline true)).err) ∧
      (Parse c ambient itp p).result =
        (match c.unmarshalStringMap p.pipeline with
         | .ok r => some r
         | .error _ => none) ∧
      (Parse c ambient itp p).err =
        (match c.unmarshalStringMap p.pipeline with
         | .ok _ => none
         | .error m => some (errPrefixOf p.filename ++ ": " ++ formatYAMLError m)) := by
  intro α c ambient itp itp2 p hni
  refine ⟨?_, ?_, ?_, ?_, ?_⟩
  · cases hu : c.unmarshalStringMap p.pipeline <;> simp [Parse, hni, hu]
  · cases hu : c.unmarshalStringMap p.pipeline <;> simp [Parse, hni, hu]
  · intro e1 e2
    cases hu : c.unmarshalStringMap p.pipeline <;> simp [Parse, hni, hu]
  · cases hu : c.unmarshalStringMap p.pipeline <;> simp [Parse, hni, hu]
  · cases hu : c.unmarshalStringMap p.pipeline <;> simp [Parse, hni, hu]

/-- Witness for C6 on a concrete codec whose string-map decode succeeds
with the raw document unchanged. -/
theorem noInterpolation_only_normalizes_witness :
    Parse codecSliceDoc [] itpStrict ⟨some [("A", "x")], "", "raw", true⟩ =
      Parse codecSliceDoc [] itpLookup ⟨some [("A", "x")], "", "raw", true⟩ ∧
    (Parse codecSliceDoc [] itpStrict ⟨some [("A", "x")], "", "raw", true⟩).envOut =
      envOf (⟨some [("A", "x")], "", "raw", true⟩ : PipelineParser String) [] ∧
    (Parse codecSliceDoc [] itpStrict ⟨some [("A", "x")], "", "raw", true⟩).result =
      some RNode.null :=
  ⟨(noInterpolation_only_normalizes String codecSliceDoc [] itpStrict itpLookup
      ⟨some [("A", "x")], "", "raw", true⟩ rfl).1,
   (noInterpolation_only_normalizes String codecSliceDoc [] itpStrict itpLookup
      ⟨some [("A", "x")], "", "raw", true⟩ rfl).2.1,
   (noInterpolation_only_normalizes String codecSliceDoc [] itpStrict itpLookup
      ⟨some [("A", "x")], "", "raw", true⟩ rfl).2.2.2.1⟩

/-- C9: once the env pre-pass has mutated the Environment, Parse returns
that mutated Environment whatever happens afterwards; in particular the
mutations are not rolled back when a later stage fails. -/
theorem env_mutations_persist :
    ∀ (α : Type) (c : Codec α) (ambient : Env) (itp : Itp)
      (p : PipelineParser α) (e0 e1 : Env) (d : String) (ps : PairList),
      p.env = some e0 →
      p.noInterpolation = false →
      c.decodeSlice p.pipeline = .error d →
      parseWithEnv c itp e0 p.pipeline = (.ok ps, e1) →
      (Parse c ambient itp p).envOut = e1 := by
  intro α c ambient itp p e0 e1 d ps hp hni hs hpw
  have he : envOf p ambient = e0 := by simp [envOf, hp]
  rw [show (Parse c ambient itp p) =
      parseFinish c itp e1 (errPrefixOf p.filename) (.omap ps) by
    simp [Parse, hni, hs, he, hpw]]
  exact parseFinish_envOut c itp e1 _ _

/-- Witness for C9: the pre-pass stores A=x into an initially empty
caller Environment, the marshal step then fails, and Parse still returns
the mutated Environment [("A", "x")] (together with the bare marshal
error), not the original empty one. -/
theorem env_mutations_persist_witness :
    (Parse codecEnvThenMarshalFail [] itpLookup
      ⟨some [], "", "raw", false⟩).envOut = [("A", "x")] ∧
    (Parse codecEnvThenMarshalFail [] itpLookup
      ⟨some [], "", "raw", false⟩).err = some "marshal exploded" ∧
    ([("A", "x")] : Env) ≠ ([] : Env) :=
  ⟨env_mutations_persist String codecEnvThenMarshalFail [] itpLookup
      ⟨some [], "", "raw", false⟩ [] [("A", "x")] "yaml: unmarshal errors"
      (.cons (.str "env") (.omap (.cons (.str "A") (.str "x") .nil)) .nil) rfl rfl rfl rfl,
   rfl, by decide⟩


theorem interpolateNodeList_failfast (itp : Itp) (e : Env) :
    ∀ (pre : NodeList) (x : Node) (post : NodeList) (msg : String),
      allOk itp e pre →
      interpolateNode itp e x = .error msg →
      interpolateNodeList itp e (NodeList.append pre (.cons x post)) = .error msg
  | .nil, x, post, msg, _, hx => by
    simp [NodeList.append, interpolateNodeList, hx]
  | .cons y ys, x, post, msg, hall, hx => by
    have hall' : (∃ y', interpolateNode itp e y = .ok y') ∧ allOk itp e ys := hall
    obtain ⟨⟨y', hy⟩, hrest⟩ := hall'
    simp [NodeList.append, interpolateNodeList, hy,
      interpolateNodeList_failfast itp e ys x post msg hrest hx]

theorem parse_err_result {α : Type} (c : Codec α) (ambient : Env) (itp : Itp)
    (p : PipelineParser α) (msg : String)
    (h : (Parse c ambient itp p).err = some msg) :
    (Parse c ambient itp p).result = none := by
  cases hni : p.noInterpolation with
  | true =>
    cases hu : c.unmarshalStringMap p.pipeline with
    | error m => simp [Parse, hni, hu]
    | ok r => simp [Parse, hni, hu] at h
  | false =>
    cases hs : c.decodeSlice p.pipeline with
    | ok xs =>
      have hb : Parse c ambient itp p =
          parseFinish c itp (envOf p ambient) (errPrefixOf p.filename) (.seq xs) := by
        simp [Parse, hni, hs]
      rw [hb] at h ⊢
      exact parseFinish_err_result c itp _ _ _ msg h
    | error d =>
      rcases hpw : parseWithEnv c itp (envOf p ambient) p.pipeline with ⟨res, e'⟩
      cases res with
      | error m => simp [Parse, hni, hs, hpw]
      | ok ps =>
        have hb : Parse c ambient itp p =
            parseFinish c itp e' (errPrefixOf p.filename) (.omap ps) := by
          simp [Parse, hni, hs, hpw]
        rw [hb] at h ⊢
        exact parseFinish_err_result c itp _ _ _ msg h

/-- C8: the tree walk is fail-fast (sequence elements are interpolated in
index order and the first failing element's error aborts the whole walk),
and whenever Parse returns an error the returned document is nil: no
partial document is ever returned. -/
theorem failfast_no_partial_document :
    (∀ (itp : Itp) (e : Env) (pre : NodeList) (x : Node) (post : NodeList)
        (msg : String),
      allOk itp e pre →
      interpolateNode itp e x = .error msg →
      interpolateNode itp e (.seq (NodeList.append pre (.cons x post))) = .error msg) ∧
    (∀ (α : Type) (c : Codec α) (ambient : Env) (itp : Itp)
        (p : PipelineParser α) (msg : String),
      (Parse c ambient itp p).err = some msg →
      (Parse c ambient itp p).result = none) := by
  constructor
  · intro itp e pre x post msg hall hx
    simp [interpolateNode, interpolateNodeList_failfast itp e pre x post msg hall hx]
  · intro α c ambient itp p msg h
    exact parse_err_result c ambient itp p msg h

/-- Witness for C8: the second element of a three-element sequence fails,
the first succeeds, the error surfaces unchanged, and a concrete failing
Parse returns a nil document. -/
theorem failfast_no_partial_document_witness :
    interpolateNode itpStrict [("a", "ok")]
      (.seq (.cons (.str "a") (.cons (.str "bad") (.cons (.str "later") .nil)))) =
      .error "unknown variable bad" ∧
    (Parse codecSliceDoc [] itpStrict ⟨some [], "", "raw", false⟩).result = none :=
  ⟨failfast_no_partial_document.1 itpStrict [("a", "ok")]
      (.cons (.str "a") .nil) (.str "bad") (.cons (.str "later") .nil)
      "unknown variable bad" ⟨⟨.str "ok", rfl⟩, trivial⟩ rfl,
   failfast_no_partial_document.2 String codecSliceDoc [] itpStrict
      ⟨some [], "", "raw", false⟩ "unknown variable $\x7bX\x7d" rfl⟩


theorem interpolatePairList_pointwise (itp : Itp) (e : Env) :
    ∀ (ps ps' : PairList), interpolatePairList itp e ps = .ok ps' →
      PairList.length ps' = PairList.length ps ∧
      ∀ (i : Nat) (k v : Node), ps.get? i = some (k, v) →
        ∃ k' v', interpolateNode itp e k = .ok k' ∧
          interpolateNode itp e v = .ok v' ∧ ps'.get? i = some (k', v')
  | .nil, ps', h => by
    simp only [interpolatePairList, Except.ok.injEq] at h
    subst h
    exact ⟨rfl, by intro i k v hi; simp [PairList.get?] at hi⟩
  | .cons k v rest, ps', h => by
    cases hk : interpolateNode itp e k with
    | error m => simp [interpolatePairList, hk] at h
    | ok k' =>
      cases hv : interpolateNode itp e v with
      | error m => simp [interpolatePairList, hk, hv] at h
      | ok v' =>
        cases hr : interpolatePairList itp e rest with
        | error m => simp [interpolatePairList, hk, hv, hr] at h
        | ok rest' =>
          simp only [interpolatePairList, hk, hv, hr, Except.ok.injEq] at h
          subst h
          have ih := interpolatePairList_pointwise itp e rest rest' hr
          refine ⟨by simp [PairList.length, ih.1], ?_⟩
          intro i k0 v0 hi
          cases i with
          | zero =>
            simp only [PairList.get?, Option.some.injEq, Prod.mk.injEq] at hi
            obtain ⟨hk0, hv0⟩ := hi
            subst hk0; subst hv0
            exact ⟨k', v', hk, hv, by simp [PairList.get?]⟩
          | succ i =>
            simp only [PairList.get?] at hi
            exact ih.2 i k0 v0 hi

/-- C5 counterexample: a composite (non-string) map key is not copied
entirely unchanged — the walk recurses into the yaml.MapItem Key field,
so a sequence-valued key containing a placeholder string comes back with
that string interpolated. -/
theorem omap_nonstring_key_counterexample :
    interpolateNode itpLookup [("$\x7bA\x7d", "x")]
      (.omap (.cons (.seq (.cons (.str "$\x7bA\x7d") .nil)) (.int 1) .nil)) =
      .ok (.omap (.cons (.seq (.cons (.str "x") .nil)) (.int 1) .nil)) ∧
    Node.seq (.cons (.str "x") .nil) ≠ Node.seq (.cons (.str "$\x7bA\x7d") .nil) :=
  ⟨rfl, by decide⟩

/-- C5 amended: during interpolation of an ordered map the entries keep
their order (pointwise, with the same length); each entry's key and value
are both interpolated recursively, so a string key and its string value
are both interpolated; a string key whose interpolation fails aborts the
walk with exactly the evaluator's error, like a value failure; non-string
*scalar* keys (numbers, booleans, null) are copied unchanged, while
composite keys are interpolated recursively rather than copied; and the
KEYVAR example holds. -/
theorem omap_interpolation_amended :
    (∀ (itp : Itp) (e : Env) (ps ps' : PairList),
      interpolatePairList itp e ps = .ok ps' →
      PairList.length ps' = PairList.length ps ∧
      ∀ (i : Nat) (k v : Node), ps.get? i = some (k, v) →
        ∃ k' v', interpolateNode itp e k = .ok k' ∧
          interpolateNode itp e v = .ok v' ∧ ps'.get? i = some (k', v')) ∧
    (∀ (itp : Itp) (e : Env) (ks vs ks' vs' : String) (rest rest' : PairList),
      itp e ks = .ok ks' → itp e vs = .ok vs' →
      interpolatePairList itp e rest = .ok rest' →
      interpolatePairList itp e (.cons (.str ks) (.str vs) rest) =
        .ok (.cons (.str ks') (.str vs') rest')) ∧
    (∀ (itp : Itp) (e : Env) (ks : String) (v : Node) (rest : PairList)
        (msg : String),
      itp e ks = .error msg →
      interpolateNode itp e (.omap (.cons (.str ks) v rest)) = .error msg) ∧
    (∀ (itp : Itp) (e : Env) (v v' : Node) (rest rest' : PairList) (n : Int)
        (b : Bool),
      interpolateNode itp e v = .ok v' →
      interpolatePairList itp e rest = .ok rest' →
      interpolatePairList itp e (.cons (.int n) v rest) =
        .ok (.cons (.int n) v' rest') ∧
      interpolatePairList itp e (.cons (.bool b) v rest) =
        .ok (.cons (.bool b) v' rest') ∧
      interpolatePairList itp e (.cons .null v rest) =
        .ok (.cons .null v' rest')) ∧
    (∀ (itp : Itp) (e : Env),
      itp e "$\x7bKEYVAR\x7d" = .ok "name" → itp e "value" = .ok "value" →
      interpolateNode itp e (.omap (.cons (.str "$\x7bKEYVAR\x7d") (.str "value") .nil)) =
        .ok (.omap (.cons (.str "name") (.str "value") .nil))) := by
  refine ⟨?_, ?_, ?_, ?_, ?_⟩
  · intro itp e ps ps' h
    exact interpolatePairList_pointwise itp e ps ps' h
  · intro itp e ks vs ks' vs' rest rest' hk hv hr
    simp [interpolatePairList, interpolateNode, hk, hv, hr]
  · intro itp e ks v rest msg hk
    simp [interpolateNode, interpolatePairList, hk]
  · intro itp e v v' rest rest' n b hv hr
    refine ⟨?_, ?_, ?_⟩ <;> simp [interpolatePairList, interpolateNode, hv, hr]
  · intro itp e h1 h2
    simp [interpolateNode, interpolatePairList, h1, h2]

/-- Witness for C5 amended on concrete inputs, including the KEYVAR
example with KEYVAR bound to "name". -/
theorem omap_interpolation_amended_witness :
    (PairList.length (PairList.cons (.str "x") (.str "v") .nil) =
      PairList.length (PairList.cons (.str "$\x7bA\x7d") (.str "v") .nil) ∧
     ∀ (i : Nat) (k v : Node),
       (PairList.cons (.str "$\x7bA\x7d") (.str "v") .nil).get? i = some (k, v) →
       ∃ k' v', interpolateNode itpLookup [("$\x7bA\x7d", "x")] k = .ok k' ∧
         interpolateNode itpLookup [("$\x7bA\x7d", "x")] v = .ok v' ∧
         (PairList.cons (.str "x") (.str "v") .nil).get? i = some (k', v')) ∧
    interpolatePairList itpLookup [("$\x7bA\x7d", "x")]
      (.cons (.str "$\x7bA\x7d") (.str "$\x7bA\x7d") .nil) =
      .ok (.cons (.str "x") (.str "x") .nil) ∧
    interpolateNode itpStrict []
      (.omap (.cons (.str "oops") (.int 1) .nil)) = .error "unknown variable oops" ∧
    interpolatePairList itpLookup [] (.cons (.int 9) (.str "w") .nil) =
      .ok (.cons (.int 9) (.str "w") .nil) ∧
    interpolateNode itpLookup [("$\x7bKEYVAR\x7d", "name")]
      (.omap (.cons (.str "$\x7bKEYVAR\x7d") (.str "value") .nil)) =
      .ok (.omap (.cons (.str "name") (.str "value") .nil)) :=
  ⟨omap_interpolation_amended.1 itpLookup [("$\x7bA\x7d", "x")]
      (.cons (.str "$\x7bA\x7d") (.str "v") .nil)
      (.cons (.str "x") (.str "v") .nil) rfl,
   omap_interpolation_amended.2.1 itpLookup [("$\x7bA\x7d", "x")]
      "$\x7bA\x7d" "$\x7bA\x7d" "x" "x" .nil .nil rfl rfl rfl,
   omap_interpolation_amended.2.2.1 itpStrict [] "oops" (.int 1) .nil
      "unknown variable oops" rfl,
   (omap_interpolation_amended.2.2.2.1 itpLookup [] (.str "w") (.str "w")
      .nil .nil 9 true rfl rfl).1,
   omap_interpolation_amended.2.2.2.2 itpLookup [("$\x7bKEYVAR\x7d", "name")]
      rfl rfl⟩

end Agent
